import Mathlib

/-!
Shallow embedding of the risk-query and case-normalization pipeline of the
covid19_dashboard repository (src/corona/epirisk.py and
src/corona/countries.py), together with theorems settling the frozen claims
about it.

Python dicts are modelled as insertion-ordered association lists with unique
keys; Python ints as Lean Int; Python floats as Lean Rat (exact arithmetic
standing in for IEEE doubles, which is faithful for the equalities and
comparisons the claims are about); raising an exception as Except.error.
-/

namespace Corona

/-- Python dict lookup `d.get(k)` on an insertion-ordered association list:
the first entry with the given key, if any. -/
def alookup {α β : Type} [DecidableEq α] : List (α × β) → α → Option β
  | [], _ => none
  | p :: t, k => if p.1 = k then some p.2 else alookup t k

/-- Python `d[k] = v`: if the key is present, the value is updated in place
(the entry keeps its position); otherwise the pair is appended at the end. -/
def dictSet {α β : Type} [DecidableEq α] (l : List (α × β)) (k : α) (v : β) :
    List (α × β) :=
  if (l.map Prod.fst).contains k then
    l.map (fun p => if p.1 = k then (k, v) else p)
  else
    l ++ [(k, v)]

/-- Python `del d[k]`: removes the (unique) entry with the given key. -/
def dictDel {α β : Type} [DecidableEq α] : List (α × β) → α → List (α × β)
  | [], _ => []
  | p :: t, k => if p.1 = k then t else p :: dictDel t k

theorem alookup_eq_none {α β : Type} [DecidableEq α] :
    ∀ {l : List (α × β)} {k : α}, k ∉ l.map Prod.fst → alookup l k = none
  | [], _, _ => rfl
  | p :: t, k, h => by
    have h1 : p.1 ≠ k := by
      intro he
      exact h (by simp [he])
    have h2 : k ∉ t.map Prod.fst := by
      intro hm
      exact h (by simp [hm])
    simp [alookup, h1, alookup_eq_none h2]

theorem alookup_mem {α β : Type} [DecidableEq α] :
    ∀ {l : List (α × β)} {k : α} {v : β}, alookup l k = some v → (k, v) ∈ l
  | [], _, _, h => by simp [alookup] at h
  | p :: t, k, v, h => by
    by_cases hp : p.1 = k
    · have hv : p.2 = v := by simpa [alookup, hp] using h
      have hpe : p = (k, v) := by
        cases p
        simp_all
      rw [← hpe]
      exact List.mem_cons_self p t
    · simp [alookup, hp] at h
      exact List.mem_cons_of_mem _ (alookup_mem h)

theorem alookup_ne_none_of_mem {α β : Type} [DecidableEq α] :
    ∀ {l : List (α × β)} {k : α} {v : β}, (k, v) ∈ l → alookup l k ≠ none
  | [], _, _, h => by simp at h
  | p :: t, k, v, h => by
    by_cases hp : p.1 = k
    · simp [alookup, hp]
    · simp [alookup, hp]
      rcases List.mem_cons.1 h with he | ht
      · exact absurd (by rw [← he]) hp
      · exact alookup_ne_none_of_mem ht

theorem alookup_of_mem_nodup {α β : Type} [DecidableEq α] :
    ∀ {l : List (α × β)} {k : α} {v : β}, (k, v) ∈ l →
      (l.map Prod.fst).Nodup → alookup l k = some v
  | [], _, _, h, _ => by simp at h
  | p :: t, k, v, h, hn => by
    rcases List.mem_cons.1 h with he | ht
    · simp [alookup, ← he]
    · have hn' : (p.1 :: t.map Prod.fst).Nodup := by
        simpa only [List.map_cons] using hn
      have hk : k ∈ t.map Prod.fst := List.mem_map_of_mem Prod.fst ht
      have hp : p.1 ≠ k := by
        intro he
        exact (List.nodup_cons.1 hn').1 (he ▸ hk)
      simp [alookup, hp]
      exact alookup_of_mem_nodup ht (List.nodup_cons.1 hn').2

theorem mem_keys_of_alookup {α β : Type} [DecidableEq α] {l : List (α × β)}
    {k : α} {v : β} (h : alookup l k = some v) : k ∈ l.map Prod.fst := by
  have := alookup_mem h
  exact List.mem_map_of_mem Prod.fst this

theorem keys_map_update {α β : Type} [DecidableEq α] (l : List (α × β))
    (k : α) (v : β) :
    (l.map (fun p => if p.1 = k then (k, v) else p)).map Prod.fst =
      l.map Prod.fst := by
  rw [List.map_map]
  apply List.map_congr_left
  intro p _
  by_cases hp : p.1 = k
  · simp [hp]
  · simp [hp]

theorem alookup_update_self {α β : Type} [DecidableEq α] :
    ∀ {l : List (α × β)} {k : α} (v : β), k ∈ l.map Prod.fst →
      alookup (l.map (fun p => if p.1 = k then (k, v) else p)) k = some v
  | [], _, _, h => by simp at h
  | p :: t, k, v, h => by
    by_cases hp : p.1 = k
    · simp [alookup, hp]
    · have hk : k ∈ t.map Prod.fst := by
        simp only [List.map_cons, List.mem_cons] at h
        rcases h with he | ht
        · exact absurd he.symm hp
        · exact ht
      simp only [List.map_cons, if_neg hp]
      simp [alookup, hp]
      exact alookup_update_self v hk

theorem alookup_append_right {α β : Type} [DecidableEq α] :
    ∀ {l m : List (α × β)} {k : α}, k ∉ l.map Prod.fst →
      alookup (l ++ m) k = alookup m k
  | [], _, _, _ => rfl
  | p :: t, m, k, h => by
    have h1 : p.1 ≠ k := by
      intro he
      exact h (by simp [he])
    have h2 : k ∉ t.map Prod.fst := by
      intro hm
      exact h (by simp [hm])
    simp [alookup, h1]
    exact alookup_append_right h2

theorem alookup_dictSet_self {α β : Type} [DecidableEq α]
    (l : List (α × β)) (k : α) (v : β) :
    alookup (dictSet l k v) k = some v := by
  unfold dictSet
  by_cases hc : (l.map Prod.fst).contains k
  · rw [if_pos hc]
    exact alookup_update_self v (by simpa using hc)
  · rw [if_neg hc]
    rw [alookup_append_right (by simpa using hc)]
    simp [alookup]

theorem alookup_update_ne {α β : Type} [DecidableEq α] :
    ∀ {l : List (α × β)} {k k' : α} (v : β), k' ≠ k →
      alookup (l.map (fun p => if p.1 = k then (k, v) else p)) k' =
        alookup l k'
  | [], _, _, _, _ => rfl
  | p :: t, k, k', v, h => by
    by_cases hp : p.1 = k
    · have hk : k ≠ k' := fun he => h he.symm
      simp only [List.map_cons, if_pos hp]
      simp [alookup, hk, hp ▸ hk, alookup_update_ne v h]
    · simp only [List.map_cons, if_neg hp]
      by_cases hq : p.1 = k'
      · simp [alookup, hq]
      · simp [alookup, hq, alookup_update_ne v h]

theorem alookup_append_ne {α β : Type} [DecidableEq α] :
    ∀ {l : List (α × β)} {k k' : α} (v : β), k' ≠ k →
      alookup (l ++ [(k, v)]) k' = alookup l k'
  | [], k, k', v, h => by simp [alookup, Ne.symm h]
  | p :: t, k, k', v, h => by
    by_cases hq : p.1 = k'
    · simp [alookup, hq]
    · simp [alookup, hq]
      exact alookup_append_ne v h

theorem alookup_dictSet_ne {α β : Type} [DecidableEq α]
    {l : List (α × β)} {k k' : α} (v : β) (h : k' ≠ k) :
    alookup (dictSet l k v) k' = alookup l k' := by
  unfold dictSet
  by_cases hc : (l.map Prod.fst).contains k
  · rw [if_pos hc]
    exact alookup_update_ne v h
  · rw [if_neg hc]
    exact alookup_append_ne v h

theorem nodup_keys_dictSet {α β : Type} [DecidableEq α]
    {l : List (α × β)} {k : α} (v : β) (hn : (l.map Prod.fst).Nodup) :
    ((dictSet l k v).map Prod.fst).Nodup := by
  unfold dictSet
  by_cases hc : (l.map Prod.fst).contains k
  · rw [if_pos hc, keys_map_update]
    exact hn
  · rw [if_neg hc]
    have hk : k ∉ l.map Prod.fst := by simpa using hc
    simp only [List.map_append, List.map_cons, List.map_nil]
    exact List.Nodup.append hn (List.nodup_singleton k)
      (by simpa [List.disjoint_singleton] using hk)

theorem alookup_dictDel_self {α β : Type} [DecidableEq α] :
    ∀ {l : List (α × β)} {k : α}, (l.map Prod.fst).Nodup →
      alookup (dictDel l k) k = none
  | [], _, _ => rfl
  | p :: t, k, hn => by
    have hn' : (p.1 :: t.map Prod.fst).Nodup := by
      simpa only [List.map_cons] using hn
    by_cases hp : p.1 = k
    · simp only [dictDel, if_pos hp]
      apply alookup_eq_none
      exact hp ▸ (List.nodup_cons.1 hn').1
    · simp only [dictDel, if_neg hp]
      simp [alookup, hp]
      exact alookup_dictDel_self (List.nodup_cons.1 hn').2

/-- Geolevel of an Epirisk query: the two location tables of epirisk.py
(module dict `locations = \x7b'basin': cities, 'country': countries\x7d`). -/
inductive Geolevel : Type
  | country : Geolevel
  | basin : Geolevel
deriving DecidableEq

/-- Module constant `_months` of epirisk.py. -/
def months : List String :=
  ["Jan", "Feb", "Mar", "Apr", "May", "Jun", "Jul", "Aug", "Sep",
   "Oct", "Nov", "Dec"]

/-- Python list indexing `l[i]`, including negative indices from the end;
out-of-range indices raise IndexError, modelled as none. -/
def pyIndex (l : List String) (i : Int) : Option String :=
  if 0 ≤ i then l.get? i.toNat
  else if 0 ≤ (l.length : Int) + i then l.get? ((l.length : Int) + i).toNat
  else none

/-- State of an EpiriskQuery object (class EpiriskQuery of epirisk.py).
self.cases is a dict from location id to case count; self.locations is the
label-to-id view of the table selected by geolevel at construction time
(only the ids matter for the claims, so the lat/lng/population metadata of
Location is not carried). -/
structure EpiriskQuery : Type where
  cases : List (Int × Int)
  geolevel : Geolevel
  locations : List (String × Int)
  period : Int
  month : Int
  travel_level : ℚ
  mute : Bool
deriving DecidableEq

/-- Constructor EpiriskQuery.__init__: empty cases dict, locations bound to
the table selected by geolevel (the tables themselves are data loaded from
the bundled epirisk_getinitdata.json resource, passed here as a parameter). -/
def epiriskInit (tables : Geolevel → List (String × Int)) (geolevel : Geolevel)
    (period : Int) (month : Int) (travel_level : ℚ) (mute : Bool) :
    EpiriskQuery :=
  { cases := [], geolevel := geolevel, locations := tables geolevel,
    period := period, month := month, travel_level := travel_level,
    mute := mute }

/-- A key passed to __setitem__ or __getitem__: a location label (str) or a
location id (int). -/
inductive PyKey : Type
  | str : String → PyKey
  | intk : Int → PyKey
deriving DecidableEq

/-- Tail of EpiriskQuery.__setitem__ once the key is an id: a value of 0
deletes the entry if present, any other value is stored. -/
def setCount (q : EpiriskQuery) (k : Int) (value : Int) : EpiriskQuery :=
  if value = 0 then
    if (q.cases.map Prod.fst).contains k then
      { q with cases := dictDel q.cases k }
    else q
  else
    { q with cases := dictSet q.cases k value }

/-- EpiriskQuery.__setitem__: a string key is resolved through
self.locations; an unknown label prints a diagnostic and then either
returns unchanged (mute) or re-raises the KeyError (modelled as
Except.error). Int keys are used as ids directly, unchecked. -/
def setItem (q : EpiriskQuery) (key : PyKey) (value : Int) :
    Except String EpiriskQuery :=
  match key with
  | PyKey.str s =>
    match alookup q.locations s with
    | some k => Except.ok (setCount q k value)
    | none =>
      if q.mute then Except.ok q
      else Except.error ("Unknown country: " ++ s)
  | PyKey.intk k => Except.ok (setCount q k value)

/-- EpiriskQuery.__getitem__: a string key is resolved through
self.locations, with -1 as the id when the label is unknown; the result is
self.cases.get(item, 0). Total: it never raises. -/
def getItem (q : EpiriskQuery) (key : PyKey) : Int :=
  let item : Int :=
    match key with
    | PyKey.str s =>
      match alookup q.locations s with
      | some k => k
      | none => -1
    | PyKey.intk k => k
  (alookup q.cases item).getD 0

/-- The built request object (the dict literal returned by
EpiriskQuery.build_query). userdata is always the empty dict and is not
carried; the only **kwargs field used in the repository is targets. -/
structure QueryObj : Type where
  geolevel : Geolevel
  period : Int
  sources : List Int
  cases : List (Int × Int)
  month : Option String
  travel_level : ℚ
  targets : Option (List Int)
deriving DecidableEq

/-- Comparison key of `sorted(self.cases.items(), key=lambda t: t[1])`. -/
def caseLE (a b : Int × Int) : Bool :=
  decide (a.2 ≤ b.2)

/-- Constant KEEP_TOP_CASES_COUNT of EpiriskQuery.build_query. -/
def KEEP_TOP_CASES_COUNT : Nat := 117

/-- The entries kept by the slice
`sorted(self.cases.items(), key=lambda t: t[1])[-KEEP_TOP_CASES_COUNT:]`:
Python sorted is an ascending stable sort (mergeSort here is as well), and
the slice keeps the last 117 elements (all of them when there are fewer). -/
def keptCases (cases : List (Int × Int)) : List (Int × Int) :=
  (cases.mergeSort caseLE).drop
    ((cases.mergeSort caseLE).length - KEEP_TOP_CASES_COUNT)

/-- limited_cases as finally used by build_query: the kept top entries with
the denylist ids force-set to zero (`limited_cases[53] = 0` for Northern
Cyprus and `limited_cases[4] = 0` for the Aland islands). -/
def limited_cases (cases : List (Int × Int)) : List (Int × Int) :=
  dictSet (dictSet (keptCases cases) 53 0) 4 0

/-- EpiriskQuery.build_query: note that the geolevel field of the returned
dict is the hardcoded literal 'country' in the source, not self.geolevel. -/
def build_query (q : EpiriskQuery) (targets : Option (List Int)) : QueryObj :=
  let limited := limited_cases q.cases
  { geolevel := Geolevel.country,
    period := q.period,
    sources := limited.map Prod.fst,
    cases := limited,
    month := pyIndex months (q.month - 1),
    travel_level := q.travel_level,
    targets := targets }

/-- Method-call view of build_query, returning the result together with the
post-state of the receiver. The Python body reads self.cases through
`sorted(...)` (which materializes a fresh list) and `dict(...)` (which
copies into the fresh dict limited_cases); the two in-place updates
`limited_cases[53] = 0` and `limited_cases[4] = 0` mutate only that fresh
dict, and no attribute of self is ever assigned, so the post-state is the
pre-state. -/
def build_query_call (q : EpiriskQuery) (targets : Option (List Int)) :
    QueryObj × EpiriskQuery :=
  (build_query q targets, q)

/-- The override dict of adjust_country_names in epirisk.py (JHU CSSE
Country/Region names to the names expected by the Epirisk API). -/
def countryNameMapping : List (String × String) :=
  [("Hong Kong", "China"),
   ("Macau", "China"),
   ("Mainland China", "China"),
   ("South Korea", "Korea, Rep."),
   ("US", "United States of America"),
   ("Russia", "Russian Federation"),
   ("UK", "United Kingdom"),
   ("Egypt", "Egypt, Arab Rep."),
   ("North Macedonia", "Macedonia"),
   ("Faroe Islands", "Faeroe Islands"),
   ("Republic of Ireland", "Ireland"),
   ("Saint Barthelemy", "St-Barth\xe9lemy"),
   ("Slovakia", "Slovak Republic"),
   ("Czechia", "Czech Republic"),
   ("Taiwan*", "Taiwan"),
   ("Korea, South", "Korea, Rep."),
   ("Cote d\x27Ivoire", "C\xf4te d\x27Ivoire"),
   ("Congo (Kinshasa)", "Congo, Dem. Rep."),
   ("Cyprus, Northern", "Cyprus")]

/-- adjust_country_names of epirisk.py, pointwise: pandas Series.replace
with a dict maps a value equal to a key of the dict to the associated
value, and passes every other value through unchanged. -/
def adjust_country_names (s : String) : String :=
  (alookup countryNameMapping s).getD s

/-- iso3_from_name of countries.py. The fuzzy/regex matcher
`_conv.convert(name, src='regex', not_found=nf_marker)` belongs to the
external country_converter library, so it is abstracted as a function
conv returning none exactly when the matcher would return the fresh
nf_marker object. With no caller-supplied fallback a KeyError is raised
(Except.error); with a fallback, the fallback itself is returned. -/
def iso3_from_name (conv : String → Option String) (name : String)
    (not_found : Option String) : Except String String :=
  match conv name with
  | some iso3 => Except.ok iso3
  | none =>
    match not_found with
    | none => Except.error ("Could not recognize country " ++ name)
    | some fb => Except.ok fb

/-- The bins list of query_epirisk (line `bins = [0, 2, 5, 10, 50, 100,
400, 5000]`). -/
def bins : List ℚ := [0, 2, 5, 10, 50, 100, 400, 5000]

/-- The labels list of query_epirisk. -/
def binLabels : List String :=
  ["0-2", "2-5", "5-10", "10-50", "50-100", "100-400", ">400"]

/-- pandas pd.cut with default right=True on a single value: x is assigned
the label of the interval (b_i, b_next] that contains it, and none (NaN)
when x lies outside every interval. -/
def pdCut (x : ℚ) : List ℚ → List String → Option String
  | b0 :: b1 :: bs, lab :: labs =>
    if b0 < x ∧ x ≤ b1 then some lab else pdCut x (b1 :: bs) labs
  | _, _ => none

/-- The bin column value of a row of query_epirisk, before adds_bin_col:
`pd.cut(per_mil, bins=bins, labels=labels).astype(str)` turns the NaN of
an out-of-range value into the string nan. -/
def perMilBin (x : ℚ) : String :=
  (pdCut x bins binLabels).getD "nan"

/-- A row of the joined risk/cases table of query_epirisk, restricted to
the columns the claims are about. -/
structure RiskCaseRow : Type where
  country : String
  risk : ℚ
  confirmed : ℚ
deriving DecidableEq

/-- The join step of query_epirisk (lines 245 to 249): pandas outer merge
of distribution_df[['Country', 'Risk']] with
latest_cases_df[['Country', 'Confirmed']] on Country, followed by
`Confirmed.fillna(0)` and `Risk.fillna(1)`. For tables with unique Country
keys the outer merge yields the left rows (each matched against the right
table) followed by the unmatched right rows. -/
def joinRiskCases (dist : List (String × ℚ)) (cs : List (String × ℚ)) :
    List RiskCaseRow :=
  dist.map (fun p =>
    { country := p.1, risk := p.2, confirmed := (alookup cs p.1).getD 0 }) ++
  (cs.filter (fun p => (alookup dist p.1).isNone)).map (fun p =>
    { country := p.1, risk := 1, confirmed := p.2 })

/-- A freshly constructed query (EpiriskQuery() with the defaults of
__init__ and an empty location table). -/
def emptyQuery : EpiriskQuery :=
  { cases := [], geolevel := Geolevel.country, locations := [], period := 10,
    month := 1, travel_level := 1, mute := false }

/-- C7: applying adjust_country_names twice yields the same result as
applying it once, because no output value of the override mapping is
itself a key of the mapping. -/
theorem adjust_country_names_idem (s : String) :
    adjust_country_names (adjust_country_names s) = adjust_country_names s := by
  have hvals : ∀ p ∈ countryNameMapping,
      alookup countryNameMapping p.2 = none := by decide
  cases h : alookup countryNameMapping s with
  | none => simp [adjust_country_names, h]
  | some v =>
    have hv := hvals (s, v) (alookup_mem h)
    simp only [adjust_country_names, h, Option.getD_some]
    rw [hv]
    rfl

/-- C8: pd.cut with the default right=True assigns a boundary value to the
interval it closes on the right, so a per-million ratio of exactly 2.0 is
labelled 0-2, and the same exclusive-lower/inclusive-upper convention
holds at every boundary 2, 5, 10, 50, 100 and 400. -/
theorem bin_boundary_convention :
    perMilBin 2 = "0-2" ∧ perMilBin 5 = "2-5" ∧ perMilBin 10 = "5-10" ∧
    perMilBin 50 = "10-50" ∧ perMilBin 100 = "50-100" ∧
    perMilBin 400 = "100-400" := by
  decide

/-- C6: iso3_from_name raises when the matcher fails and no fallback was
supplied, returns the exact fallback when one was supplied, and returns
the matcher result when the name is recognized. -/
theorem iso3_from_name_spec (conv : String → Option String) (name : String) :
    (conv name = none →
      iso3_from_name conv name none =
        Except.error ("Could not recognize country " ++ name)) ∧
    (∀ fb, conv name = none →
      iso3_from_name conv name (some fb) = Except.ok fb) ∧
    (∀ r, conv name = some r → ∀ nf,
      iso3_from_name conv name nf = Except.ok r) := by
  refine ⟨fun h => ?_, fun fb h => ?_, fun r h nf => ?_⟩ <;>
    simp [iso3_from_name, h]

/-- A sample stand-in for the country_converter regex matcher, for the C6
witness. -/
def convSample : String → Option String := fun s =>
  if s = "Poland" then some "POL" else none

/-- Witness for C6 at a concrete matcher and names. -/
theorem iso3_from_name_spec_witness :
    convSample "Atlantis" = none ∧
    iso3_from_name convSample "Atlantis" (some "XXX") = Except.ok "XXX" ∧
    convSample "Poland" = some "POL" ∧
    iso3_from_name convSample "Poland" none = Except.ok "POL" :=
  ⟨by decide, (iso3_from_name_spec convSample "Atlantis").2.1 "XXX" (by decide),
   by decide, (iso3_from_name_spec convSample "Poland").2.2 "POL" (by decide) none⟩

/-- C3 counterexample: __setitem__ has no negative-count check, so setting
-5 for id 169 on a fresh query succeeds and records the negative count
instead of failing (no InvalidCaseCountError exists in the code). -/
theorem setItem_negative_counterexample :
    setItem emptyQuery (PyKey.intk 169) (-5) =
      Except.ok { emptyQuery with cases := [(169, -5)] } ∧
    getItem (setCount emptyQuery 169 (-5)) (PyKey.intk 169) = -5 := by
  constructor <;> rfl

/-- C3 amended: for every query, id key and non-zero (in particular every
negative) count, __setitem__ succeeds and stores the count verbatim. -/
theorem setItem_negative_stores (q : EpiriskQuery) (k v : Int) (hv : v ≠ 0) :
    setItem q (PyKey.intk k) v =
      Except.ok { q with cases := dictSet q.cases k v } ∧
    alookup (dictSet q.cases k v) k = some v := by
  constructor
  · simp [setItem, setCount, hv]
  · exact alookup_dictSet_self q.cases k v

/-- Witness for the amended C3 at a concrete query and negative count. -/
theorem setItem_negative_stores_witness :
    (-5 : Int) ≠ 0 ∧
    (setItem emptyQuery (PyKey.intk 169) (-5) =
        Except.ok { emptyQuery with
          cases := dictSet emptyQuery.cases 169 (-5) } ∧
      alookup (dictSet emptyQuery.cases 169 (-5)) 169 = some (-5)) :=
  ⟨by decide, setItem_negative_stores emptyQuery 169 (-5) (by decide)⟩

/-- Sample location table assignment for the C5 evaluation (the table
contents are irrelevant to the geolevel field). -/
def emptyTables : Geolevel → List (String × Int) := fun _ => []

/-- C5: the geolevel field of the built request is the hardcoded literal
'country' in build_query, so a query constructed with geolevel 'basin'
builds a request whose geolevel is 'country', contradicting both the claim
and the docstring of build_query (whose example output shows a basin
request). -/
theorem build_query_geolevel_hardcoded :
    (epiriskInit emptyTables Geolevel.basin 10 1 1 false).geolevel =
      Geolevel.basin ∧
    (build_query (epiriskInit emptyTables Geolevel.basin 10 1 1 false)
        none).geolevel = Geolevel.country ∧
    Geolevel.country ≠ Geolevel.basin :=
  ⟨rfl, rfl, by decide⟩

/-- C9: the Python method mutates only the fresh list and dict it builds
from self.cases and never assigns an attribute of self, so a build_query
call leaves the query unchanged (in particular the cases mapping) and two
consecutive calls with the same extra fields return equal requests. -/
theorem build_query_frame (q : EpiriskQuery) (targets : Option (List Int)) :
    (build_query_call q targets).2 = q ∧
    (build_query_call q targets).2.cases = q.cases ∧
    (build_query_call q targets).1 =
      (build_query_call (build_query_call q targets).2 targets).1 :=
  ⟨rfl, rfl, rfl⟩

/-- A query whose cases dict holds a count under the sentinel id -1,
reachable through the public interface as `query[-1] = 5` (int keys are
stored unchecked by __setitem__). -/
def sentinelQuery : EpiriskQuery :=
  { cases := [(-1, 5)], geolevel := Geolevel.country, locations := [],
    period := 10, month := 1, travel_level := 1, mute := false }

/-- C10 counterexample: __getitem__ maps an unknown label to the sentinel
id -1 and then reads self.cases.get(-1, 0), so on a (reachable) query that
stores a count under -1 an unknown label returns that count, not 0. -/
theorem getItem_unknown_label_counterexample :
    setItem emptyQuery (PyKey.intk (-1)) 5 = Except.ok sentinelQuery ∧
    alookup sentinelQuery.locations "Xanadu" = none ∧
    getItem sentinelQuery (PyKey.str "Xanadu") = 5 ∧ (5 : Int) ≠ 0 :=
  ⟨rfl, rfl, rfl, by decide⟩

/-- C10 amended: on an unknown label __getitem__ never raises (it is a
total function of the state), ignores the mute flag, and returns
self.cases.get(-1, 0), which is 0 whenever no count is stored under the
sentinel id -1. -/
theorem getItem_unknown_label (q : EpiriskQuery) (s : String)
    (h : alookup q.locations s = none) :
    getItem q (PyKey.str s) = (alookup q.cases (-1)).getD 0 ∧
    (alookup q.cases (-1) = none → getItem q (PyKey.str s) = 0) ∧
    (∀ b : Bool, getItem { q with mute := b } (PyKey.str s) =
      getItem q (PyKey.str s)) := by
  refine ⟨by simp [getItem, h], fun h2 => by simp [getItem, h, h2],
    fun b => rfl⟩

/-- Witness for the amended C10 at a concrete query and label. -/
theorem getItem_unknown_label_witness :
    alookup emptyQuery.locations "Xanadu" = none ∧
    (getItem emptyQuery (PyKey.str "Xanadu") =
        (alookup emptyQuery.cases (-1)).getD 0 ∧
      (alookup emptyQuery.cases (-1) = none →
        getItem emptyQuery (PyKey.str "Xanadu") = 0) ∧
      (∀ b : Bool, getItem { emptyQuery with mute := b }
          (PyKey.str "Xanadu") = getItem emptyQuery (PyKey.str "Xanadu"))) :=
  ⟨rfl, getItem_unknown_label emptyQuery "Xanadu" rfl⟩

/-- The two-step scenario of C4: setting a non-zero count and then zero
for the same id leaves the cases dict without the key, so a zero count is
indistinguishable from absence. -/
def ZeroRemovalSpec (q : EpiriskQuery) (k v : Int) : Prop :=
  ∃ q1, setItem q (PyKey.intk k) v = Except.ok q1 ∧
    ∃ q2, setItem q1 (PyKey.intk k) 0 = Except.ok q2 ∧
      alookup q2.cases k = none ∧ getItem q2 (PyKey.intk k) = 0

/-- C4: set(location, 0) after a prior non-zero set removes the key, and
get on any absent key returns 0 rather than raising. -/
theorem zero_count_removal (q : EpiriskQuery) (k v : Int)
    (hn : (q.cases.map Prod.fst).Nodup) (hv : v ≠ 0) :
    ZeroRemovalSpec q k v ∧
    ∀ (q0 : EpiriskQuery) (k0 : Int),
      alookup q0.cases k0 = none → getItem q0 (PyKey.intk k0) = 0 := by
  constructor
  · refine ⟨setCount q k v, by simp [setItem], ?_⟩
    have hq1 : (setCount q k v).cases = dictSet q.cases k v := by
      simp [setCount, hv]
    have hmem : k ∈ (setCount q k v).cases.map Prod.fst := by
      rw [hq1]
      exact mem_keys_of_alookup (alookup_dictSet_self q.cases k v)
    have hnod : ((setCount q k v).cases.map Prod.fst).Nodup := by
      rw [hq1]
      exact nodup_keys_dictSet v hn
    have hc : ((setCount q k v).cases.map Prod.fst).contains k = true := by
      simpa using hmem
    have hdel : ∀ q1 : EpiriskQuery, (q1.cases.map Prod.fst).contains k = true →
        (setCount q1 k 0).cases = dictDel q1.cases k := by
      intro q1 hc1
      simp only [setCount, if_pos rfl, reduceIte]
      rw [if_pos hc1]
    have hq2 : (setCount (setCount q k v) k 0).cases =
        dictDel (setCount q k v).cases k := hdel _ hc
    have hnone : alookup (setCount (setCount q k v) k 0).cases k = none := by
      rw [hq2]
      exact alookup_dictDel_self hnod
    refine ⟨setCount (setCount q k v) k 0, by simp [setItem], hnone, ?_⟩
    simp [getItem, hnone]
  · intro q0 k0 h
    simp [getItem, h]

/-- A sample query with one prior entry for the C4 witness. -/
def q4sample : EpiriskQuery :=
  { cases := [(7, 3)], geolevel := Geolevel.country, locations := [],
    period := 10, month := 1, travel_level := 1, mute := false }

/-- Witness for C4 at a concrete query, id and count. -/
theorem zero_count_removal_witness :
    ((q4sample.cases.map Prod.fst).Nodup ∧ (9 : Int) ≠ 0) ∧
    (ZeroRemovalSpec q4sample 169 9 ∧
      ∀ (q0 : EpiriskQuery) (k0 : Int),
        alookup q0.cases k0 = none → getItem q0 (PyKey.intk k0) = 0) :=
  ⟨⟨by decide, by decide⟩,
   zero_count_removal q4sample 169 9 (by decide) (by decide)⟩

/-- A server risk distribution assigning risk 1/2 to a country that also
has confirmed cases. -/
def dist1 : List (String × ℚ) := [("Italy", 1/2)]

/-- A latest-cases table with 5 confirmed cases for that country. -/
def cases1 : List (String × ℚ) := [("Italy", 5)]

/-- A server risk distribution whose mass over case-free countries is 1/3,
not 1. -/
def dist2 : List (String × ℚ) := [("Chad", 1/3)]

/-- C1 counterexample: query_epirisk only fills missing Risk with 1 and
missing Confirmed with 0; it never forces Risk to 1 on rows with confirmed
cases and never rescales the remaining risk mass. A joined row can
therefore have Confirmed 5 and Risk 1/2, and the risk mass over the
Confirmed = 0 rows can be 1/3 rather than 1. -/
theorem risk_normalization_counterexample :
    joinRiskCases dist1 cases1 =
      [{ country := "Italy", risk := 1/2, confirmed := 5 }] ∧
    ¬ (∀ r ∈ joinRiskCases dist1 cases1, 0 < r.confirmed → r.risk = 1) ∧
    (((joinRiskCases dist2 []).filter
        (fun r => decide (r.confirmed = 0))).map RiskCaseRow.risk).sum
      = 1/3 ∧
    (((joinRiskCases dist2 []).filter
        (fun r => decide (r.confirmed = 0))).map RiskCaseRow.risk).sum
      ≠ 1 := by
  have hjoin1 : joinRiskCases dist1 cases1 =
      [{ country := "Italy", risk := 1/2, confirmed := 5 }] := rfl
  have hjoin2 : joinRiskCases dist2 [] =
      [{ country := "Chad", risk := 1/3, confirmed := 0 }] := rfl
  refine ⟨hjoin1, ?_, ?_, ?_⟩
  · intro hall
    have hmem : ({ country := "Italy", risk := 1/2, confirmed := 5 } :
        RiskCaseRow) ∈ joinRiskCases dist1 cases1 := by
      rw [hjoin1]
      exact List.mem_singleton.2 rfl
    have hone := hall _ hmem (by norm_num)
    norm_num at hone
  · rw [hjoin2]
    norm_num [List.filter]
  · rw [hjoin2]
    norm_num [List.filter]

/-- What the join step actually guarantees about each row: Risk is the
server value when the country is in the distribution and the fillna
default 1 otherwise, and Confirmed is the case-table value when present
and the fillna default 0 otherwise. -/
def FillnaSpec (dist cs : List (String × ℚ)) : Prop :=
  ∀ r ∈ joinRiskCases dist cs,
    (alookup dist r.country = none → r.risk = 1) ∧
    (alookup cs r.country = none → r.confirmed = 0) ∧
    (alookup dist r.country = some r.risk ∨ r.risk = 1) ∧
    (alookup cs r.country = some r.confirmed ∨ r.confirmed = 0)

/-- C1 amended: in the joined table, rows missing from the server risk
distribution get Risk exactly 1.0 and rows missing from the case table get
Confirmed 0; every Risk is either the server value or the filled 1.0 and
every Confirmed is either the case-table value or the filled 0; no other
normalization or rescaling is applied. -/
theorem join_fillna (dist cs : List (String × ℚ))
    (hd : (dist.map Prod.fst).Nodup) (hc : (cs.map Prod.fst).Nodup) :
    FillnaSpec dist cs := by
  intro r hr
  rcases List.mem_append.1 hr with hl | hrr
  · rcases List.mem_map.1 hl with ⟨p, hp, he⟩
    subst he
    dsimp only
    have hds : alookup dist p.1 = some p.2 := alookup_of_mem_nodup hp hd
    refine ⟨fun h0 => ?_, fun h0 => ?_, Or.inl hds, ?_⟩
    · rw [hds] at h0
      exact Option.noConfusion h0
    · rw [h0]
      rfl
    · cases hcs : alookup cs p.1 with
      | none =>
        right
        rfl
      | some c =>
        left
        rfl
  · rcases List.mem_map.1 hrr with ⟨p, hpf, he⟩
    subst he
    dsimp only
    have hfp := List.mem_filter.1 hpf
    refine ⟨fun _ => rfl, fun h0 => ?_, Or.inr rfl,
      Or.inl (alookup_of_mem_nodup hfp.1 hc)⟩
    exact absurd h0 (alookup_ne_none_of_mem hfp.1)

/-- Witness for the amended C1 at concrete tables. -/
theorem join_fillna_witness :
    ((dist1.map Prod.fst).Nodup ∧ (cases1.map Prod.fst).Nodup) ∧
    FillnaSpec dist1 cases1 :=
  ⟨⟨by decide, by decide⟩, join_fillna dist1 cases1 (by decide) (by decide)⟩

/-- Everything C2 asserts about one built request: the cases field does not
depend on the extra kwargs; when truncation occurred exactly
KEEP_TOP_CASES_COUNT entries were kept before denylist forcing; every kept
entry has a count at least as large as every dropped entry (the remaining
tie-break being the deterministic stable-sort order on the insertion
order); dropped non-denylist keys are absent from the request and kept
non-denylist entries appear with their counts; and the denylist ids 53
(Northern Cyprus) and 4 (Aland islands) are always present with count 0. -/
def TruncationSpec (q : EpiriskQuery) : Prop :=
  (∀ t, (build_query q t).cases = (build_query q none).cases) ∧
  (keptCases q.cases).length = KEEP_TOP_CASES_COUNT ∧
  (∀ x ∈ keptCases q.cases, ∀ y ∈ q.cases, y ∉ keptCases q.cases →
    y.2 ≤ x.2) ∧
  (∀ y ∈ q.cases, y ∉ keptCases q.cases → y.1 ≠ 53 → y.1 ≠ 4 →
    alookup (build_query q none).cases y.1 = none) ∧
  (∀ x ∈ keptCases q.cases, x.1 ≠ 53 → x.1 ≠ 4 →
    alookup (build_query q none).cases x.1 = some x.2) ∧
  alookup (build_query q none).cases 53 = some 0 ∧
  alookup (build_query q none).cases 4 = some 0

set_option maxRecDepth 4096 in
/-- C2: the denylist ids 53 (Northern Cyprus) and 4 (Aland islands) are
force-set to zero in every built request, whether or not truncation
occurred and whatever the extra kwargs (first conjunct, with no hypothesis
at all); and with more than KEEP_TOP_CASES_COUNT populated entries,
build_query keeps exactly the top entries by case count (ties resolved by
the stable ascending sort over insertion order, hence deterministically)
and drops the rest (second conjunct). -/
theorem build_query_truncation (q : EpiriskQuery) :
    (∀ t, alookup (build_query q t).cases 53 = some 0 ∧
      alookup (build_query q t).cases 4 = some 0) ∧
    ((q.cases.map Prod.fst).Nodup →
      KEEP_TOP_CASES_COUNT < q.cases.length → TruncationSpec q) := by
  have hcaseslim : ∀ t : Option (List Int), (build_query q t).cases =
      dictSet (dictSet (keptCases q.cases) 53 0) 4 0 := fun _ => rfl
  constructor
  · intro t
    constructor
    · rw [hcaseslim t, alookup_dictSet_ne 0 (by decide : (53 : Int) ≠ 4)]
      exact alookup_dictSet_self _ 53 0
    · rw [hcaseslim t]
      exact alookup_dictSet_self _ 4 0
  intro hn h
  obtain ⟨s, hs⟩ : ∃ s, q.cases.mergeSort caseLE = s := ⟨_, rfl⟩
  have hperm : List.Perm s q.cases := hs ▸ List.mergeSort_perm q.cases caseLE
  have hslen : s.length = q.cases.length := hperm.length_eq
  have hkept : keptCases q.cases =
      s.drop (s.length - KEEP_TOP_CASES_COUNT) := by
    unfold keptCases
    rw [hs]
  have htrans : ∀ (a b c : Int × Int), caseLE a b → caseLE b c →
      caseLE a c := by
    intro a b c hab hbc
    simp only [caseLE, decide_eq_true_eq] at *
    omega
  have htotal : ∀ (a b : Int × Int), caseLE a b || caseLE b a := by
    intro a b
    simp only [caseLE, Bool.or_eq_true, decide_eq_true_eq]
    omega
  have hsorted : s.Pairwise (fun a b => caseLE a b) := by
    rw [← hs]
    exact List.sorted_mergeSort htrans htotal q.cases
  have hsplit : s.take (s.length - KEEP_TOP_CASES_COUNT) ++
      s.drop (s.length - KEEP_TOP_CASES_COUNT) = s :=
    List.take_append_drop _ s
  have hpw : (s.take (s.length - KEEP_TOP_CASES_COUNT) ++
      s.drop (s.length - KEEP_TOP_CASES_COUNT)).Pairwise
      (fun a b => caseLE a b) := by
    rw [hsplit]
    exact hsorted
  have hcross := (List.pairwise_append.1 hpw).2.2
  have hkeys : (s.map Prod.fst).Nodup := (hperm.map Prod.fst).nodup_iff.2 hn
  have hnodapp : ((s.take (s.length - KEEP_TOP_CASES_COUNT)).map Prod.fst ++
      (s.drop (s.length - KEEP_TOP_CASES_COUNT)).map Prod.fst).Nodup := by
    rw [← List.map_append, hsplit]
    exact hkeys
  have hnd := List.nodup_append.1 hnodapp
  have hmemtake : ∀ y ∈ q.cases, y ∉ keptCases q.cases →
      y ∈ s.take (s.length - KEEP_TOP_CASES_COUNT) := by
    intro y hy hyn
    have hys : y ∈ s := hperm.mem_iff.2 hy
    have hya : y ∈ s.take (s.length - KEEP_TOP_CASES_COUNT) ++
        s.drop (s.length - KEEP_TOP_CASES_COUNT) := by
      rw [hsplit]
      exact hys
    rcases List.mem_append.1 hya with hyt | hyd
    · exact hyt
    · exact absurd (hkept ▸ hyd) hyn
  refine ⟨fun t => rfl, ?_, ?_, ?_, ?_, ?_, ?_⟩
  · rw [hkept, List.length_drop]
    rw [hslen]
    have hlen := h
    unfold KEEP_TOP_CASES_COUNT at *
    omega
  · intro x hx y hy hyn
    have hyt := hmemtake y hy hyn
    rw [hkept] at hx
    have := hcross y hyt x hx
    simpa [caseLE] using this
  · intro y hy hyn h53 h4
    have hyt := hmemtake y hy hyn
    have hky : y.1 ∈ (s.take (s.length - KEEP_TOP_CASES_COUNT)).map
        Prod.fst := List.mem_map_of_mem Prod.fst hyt
    have hnotin : y.1 ∉ (s.drop (s.length - KEEP_TOP_CASES_COUNT)).map
        Prod.fst := fun hmem => hnd.2.2 hky hmem
    rw [hcaseslim none, alookup_dictSet_ne 0 h4, alookup_dictSet_ne 0 h53,
      hkept]
    exact alookup_eq_none hnotin
  · intro x hx h53 h4
    rw [hkept] at hx
    rw [hcaseslim none, alookup_dictSet_ne 0 h4, alookup_dictSet_ne 0 h53,
      hkept]
    exact alookup_of_mem_nodup hx hnd.2.1
  · rw [hcaseslim none, alookup_dictSet_ne 0 (by decide : (53 : Int) ≠ 4)]
    exact alookup_dictSet_self _ 53 0
  · rw [hcaseslim none]
    exact alookup_dictSet_self _ 4 0

/-- A query with 118 populated entries, for the C2 witness. -/
def q2sample : EpiriskQuery :=
  { cases := (List.range 118).map (fun i => ((i : Int), (i : Int))),
    geolevel := Geolevel.country, locations := [], period := 10, month := 1,
    travel_level := 1, mute := false }

/-- Witness for C2: the truncation part at a concrete query exceeding the
cap, and the unconditional denylist part also at a concrete query below
the cap (no truncation). -/
theorem build_query_truncation_witness :
    (((q2sample.cases.map Prod.fst).Nodup ∧
        KEEP_TOP_CASES_COUNT < q2sample.cases.length) ∧
      TruncationSpec q2sample) ∧
    (∀ t, alookup (build_query q4sample t).cases 53 = some 0 ∧
      alookup (build_query q4sample t).cases 4 = some 0) :=
  ⟨⟨⟨by decide, by decide⟩,
    (build_query_truncation q2sample).2 (by decide) (by decide)⟩,
   (build_query_truncation q4sample).1⟩

end Corona
